import Mathlib

/-!
Shallow embedding of the Angewandte open-access tracker pipelines.

The repository contains two near-duplicate pipeline scripts:

* angew_scaper.py — functions find_open_access_angew_papers_from,
  get_abstract_from_europepmc, save_results_to_csv, plus a script body.
* angew_scraper.py — functions get_crossref_data, load_existing_dois,
  append_to_csv, main.

The embedding abstracts the effectful boundary: the primary Crossref
fetch becomes an Except value (error = raise_for_status / network
failure), the Europe PMC lookup becomes a function argument, the
timestamp becomes a string argument, and the CSV file becomes a list
of rows. All normalization, dedupe, enrichment and append logic is
translated statement by statement from the Python source.
-/

namespace Angew

/-- A raw Crossref item as consumed by both scripts. Each field holds
the value of the corresponding JSON key, or none when the key is
absent. A license entry is reduced to the optional value of its URL
key; an author entry to the optional value of its family key; the
issued object to its optional date-parts list (absent issued and
absent date-parts both fall back to the same Python default value
[[None]], so one option layer is faithful). -/
structure RawItem where
  title : Option (List String)
  DOI : Option String
  URL : Option String
  license : Option (List (Option String))
  dateParts : Option (List (List (Option Int)))
  author : Option (List (Option String))
  abstract : Option String
  deriving Repr, DecidableEq

/-- Python list indexing xs[0]: raises IndexError on an empty list. -/
def headE {α : Type} : List α → Except String α
  | [] => Except.error "IndexError"
  | x :: _ => Except.ok x

/-- Character-level worker for Python str.replace: scan left to right,
emit the replacement at each non-overlapping occurrence of the pattern
and resume after it (the skip counter carries the remaining length of
a matched pattern so the recursion stays structural on the text). -/
def replaceAux (pat rep : List Char) : Nat → List Char → List Char
  | _, [] => []
  | 0, c :: rest =>
    if pat.isPrefixOf (c :: rest) ∧ pat ≠ [] then
      rep ++ replaceAux pat rep (pat.length - 1) rest
    else c :: replaceAux pat rep 0 rest
  | k + 1, _ :: rest => replaceAux pat rep k rest

/-- Python s.replace(pat, rep): every non-overlapping occurrence of
pat in s is replaced by rep (every call site in the scripts passes a
fixed non-empty pattern). -/
def pyReplace (s pat rep : String) : String :=
  ⟨replaceAux pat.data rep.data 0 s.data⟩

/-- Python s.strip(): drop leading and trailing whitespace. -/
def pyStrip (s : String) : String :=
  ⟨((s.data.dropWhile Char.isWhitespace).reverse.dropWhile Char.isWhitespace).reverse⟩

/-- Python `s or d` for an optional string s: d when s is None or empty. -/
def pyOrStr : Option String → String → String
  | none, d => d
  | some s, d => if s = "" then d else s

/-- Python `s or None` for a string s: collapse the empty string to None. -/
def pyOrNone (s : String) : Option String :=
  if s = "" then none else some s

/-! ## angew_scaper.py -/

/-- One element of the papers list built by
find_open_access_angew_papers_from (angew_scaper.py, lines 36-43). -/
structure Paper where
  title : String
  doi : String
  url : String
  license : String
  year : Option Int
  abstract : Option String
  deriving Repr, DecidableEq

/-- The loop body of find_open_access_angew_papers_from for one raw
item (angew_scaper.py, lines 29-43). Except.error models an uncaught
IndexError from the first-element indexing of title, license, or the
date-parts lists. dict.get with a default is Option.getD; a single
.get on the first license object is getD on its URL option. -/
def normalizeScaperItem (item : RawItem) : Except String Paper :=
  match headE (item.title.getD ["No title"]) with
  | .error e => .error e
  | .ok t =>
    match headE (item.license.getD [none]) with
    | .error e => .error e
    | .ok lic0 =>
      match headE (item.dateParts.getD [[none]]) with
      | .error e => .error e
      | .ok dp =>
        match headE dp with
        | .error e => .error e
        | .ok y =>
          .ok { title := t
                doi := item.DOI.getD ""
                url := item.URL.getD ""
                license := lic0.getD "No license info"
                year := y
                abstract := pyOrNone (pyStrip (pyReplace (item.abstract.getD "") "\n" " ")) }

/-- The normalization loop of find_open_access_angew_papers_from over
the fetched items (angew_scaper.py, lines 27-45); an IndexError on any
item aborts the whole call. -/
def find_open_access_angew_papers_from : List RawItem → Except String (List Paper)
  | [] => .ok []
  | i :: rest =>
    match normalizeScaperItem i, find_open_access_angew_papers_from rest with
    | .ok p, .ok ps => .ok (p :: ps)
    | .error e, _ => .error e
    | .ok _, .error e => .error e

/-- One element of the resultList.result array of a Europe PMC search
response, reduced to the only field the script reads. -/
structure PmcResult where
  abstractText : Option String
  deriving Repr, DecidableEq

/-- A Europe PMC HTTP response: the ok flag and the parsed
resultList.result array (missing keys default to the empty list). -/
structure PmcResponse where
  ok : Bool
  results : List PmcResult
  deriving Repr, DecidableEq

/-- The body of get_abstract_from_europepmc on a received response
(angew_scaper.py, lines 56-65): a non-ok status or an empty result
list yields None, otherwise the first result's falsy-guarded,
stripped abstractText. -/
def pmcExtract (r : PmcResponse) : Option String :=
  if r.ok then
    match r.results with
    | [] => none
    | first :: _ =>
      match first.abstractText with
      | none => none
      | some a => if a = "" then none else some (pyStrip a)
  else none

/-- get_abstract_from_europepmc (angew_scaper.py, lines 47-67). The
argument models the outcome of the requests call: Except.error is any
exception raised inside the try block (network failure, timeout,
malformed JSON payload), all caught and turned into None. -/
def get_abstract_from_europepmc (resp : Except String PmcResponse) : Option String :=
  match resp with
  | .error _ => none
  | .ok r => pmcExtract r

/-- A row of the angew_scaper.py CSV store, in its fixed column order
title, year, doi, url, license, abstract, retrieved. -/
structure PaperRow where
  title : String
  year : Option Int
  doi : String
  url : String
  license : String
  abstract : String
  retrieved : String
  deriving Repr, DecidableEq

/-- The enrichment step of save_results_to_csv for one new entry
(angew_scaper.py, lines 85-90): a falsy abstract (None or empty) is
replaced by the Europe PMC lookup result, falling back to the literal
sentinel when that result is itself falsy. lookup abstracts
get_abstract_from_europepmc applied to the live HTTP response. -/
def enrichAbstract (lookup : String → Option String) (p : Paper) : String :=
  match p.abstract with
  | some a => if a = "" then pyOrStr (lookup p.doi) "Abstract not available" else a
  | none => pyOrStr (lookup p.doi) "Abstract not available"

/-- The dedupe filter of save_results_to_csv (angew_scaper.py,
line 78): keep the papers whose doi is not among the store rows. -/
def newEntriesOf (store : List PaperRow) (papers : List Paper) : List Paper :=
  papers.filter (fun p => decide (p.doi ∉ store.map (fun r => r.doi)))

/-- save_results_to_csv (angew_scaper.py, lines 69-102): read existing
dois, drop already-recorded papers, return early when nothing is new,
otherwise enrich missing abstracts, stamp the retrieval time and
append one row per new entry. now is the formatted datetime.now(). -/
def save_results_to_csv (lookup : String → Option String) (now : String)
    (store : List PaperRow) (papers : List Paper) : List PaperRow :=
  if (newEntriesOf store papers).isEmpty then store
  else
    store ++ (newEntriesOf store papers).map (fun p =>
      { title := p.title
        year := p.year
        doi := p.doi
        url := p.url
        license := p.license
        abstract := enrichAbstract lookup p
        retrieved := now })

/-- Outcome of one angew_scaper.py run: the CSV rows it leaves behind
and either the count of appended rows or the uncaught error. -/
structure ScaperRunResult where
  finalStore : List PaperRow
  outcome : Except String Nat
  deriving Repr

/-- The script body of angew_scaper.py (lines 104-107): fetch, then
save. A fetch error (raise_for_status or a network exception, modelled
by the Except argument) or a normalization IndexError aborts the run
before the store is touched. -/
def scriptMain (fetchResult : Except String (List RawItem))
    (lookup : String → Option String) (now : String)
    (store : List PaperRow) : ScaperRunResult :=
  match fetchResult with
  | .error e => ⟨store, .error e⟩
  | .ok items =>
    match find_open_access_angew_papers_from items with
    | .error e => ⟨store, .error e⟩
    | .ok papers =>
      ⟨save_results_to_csv lookup now store papers, .ok (newEntriesOf store papers).length⟩

/-! ## angew_scraper.py -/

/-- A row of the angew_scraper.py CSV store, in its fixed column order
Title, Authors, DOI, URL, Date, Abstract. -/
structure Entry where
  Title : String
  Authors : String
  DOI : String
  URL : String
  Date : String
  Abstract : String
  deriving Repr, DecidableEq

/-- Python `str(p) for p in ... if p` for one date part: a falsy part
(None or 0) is omitted, any other part is rendered with str. -/
def renderDatePart : Option Int → Option String
  | none => none
  | some n => if n = 0 then none else some (toString n)

/-- The date normalization of main (angew_scraper.py, line 62): join
the truthy parts of the first date-parts entry with a dash. -/
def joinDateParts (dp : List (Option Int)) : String :=
  String.intercalate "-" (dp.filterMap renderDatePart)

/-- The per-item field extraction of the main loop (angew_scraper.py,
lines 59-72). Except.error models an uncaught IndexError from
date_parts[0] when an issued object carries an empty date-parts list. -/
def normalizeMainItem (i : RawItem) : Except String Entry :=
  match headE (i.dateParts.getD [[none]]) with
  | .error e => .error e
  | .ok dp =>
    .ok { Title := String.intercalate " " (i.title.getD [])
          Authors := String.intercalate ", " ((i.author.getD []).filterMap id)
          DOI := i.DOI.getD ""
          URL := i.URL.getD ""
          Date := joinDateParts dp
          Abstract := pyStrip (pyReplace (pyReplace (i.abstract.getD "") "<jats:p>" "") "</jats:p>" "") }

/-- load_existing_dois (angew_scraper.py, lines 26-31): the DOI column
of the persisted rows (set membership is list membership here). -/
def load_existing_dois (store : List Entry) : List String :=
  store.map (fun r => r.DOI)

/-- The dedupe-and-normalize loop of main (angew_scraper.py,
lines 54-72): an item with an empty or already-recorded DOI is skipped
before any field extraction; the existing-DOI set is never extended
during the loop. -/
def mainNewEntries : List RawItem → List String → Except String (List Entry)
  | [], _ => .ok []
  | i :: rest, existing =>
    if i.DOI.getD "" = "" ∨ i.DOI.getD "" ∈ existing then
      mainNewEntries rest existing
    else
      match normalizeMainItem i, mainNewEntries rest existing with
      | .ok e, .ok es => .ok (e :: es)
      | .error err, _ => .error err
      | .ok _, .error err => .error err

/-- append_to_csv (angew_scraper.py, lines 34-42): append-mode write
of one row per result after any existing rows. -/
def append_to_csv (store : List Entry) (results : List Entry) : List Entry :=
  store ++ results

/-- Outcome of one angew_scraper.py run: the CSV rows it leaves behind
and either the count of appended rows or the uncaught error. -/
structure RunResult where
  finalStore : List Entry
  outcome : Except String Nat
  deriving Repr

/-- main (angew_scraper.py, lines 45-78). The fetch argument models
get_crossref_data: Except.error is a requests exception or
raise_for_status. On success the new entries are computed against the
loaded DOI set and appended (append_to_csv is only reached when the
list is non-empty; appending the empty list is the identity, so the
branch collapses). -/
def main (fetchResult : Except String (List RawItem)) (store : List Entry) : RunResult :=
  match fetchResult with
  | .error e => ⟨store, .error e⟩
  | .ok items =>
    match mainNewEntries items (load_existing_dois store) with
    | .error e => ⟨store, .error e⟩
    | .ok newEntries => ⟨append_to_csv store newEntries, .ok newEntries.length⟩

/-! ## Concrete inputs used by counterexamples and witnesses -/

/-- A raw item carrying only a DOI. -/
def itemDup : RawItem := ⟨none, some "10.1/dup", none, none, none, none, none⟩

/-- The angew_scraper.py row produced for itemDup. -/
def entryDup : Entry := ⟨"", "", "10.1/dup", "", "", ""⟩

/-- A pre-existing store row with a different DOI. -/
def entryOther : Entry := ⟨"", "", "10.1/other", "", "", ""⟩

/-- A raw item with DOI and year-only date parts. -/
def itemY : RawItem := ⟨none, some "10.1/x", none, none, some [[some 2024]], none, none⟩

/-- The angew_scraper.py row produced for itemY. -/
def entryY : Entry := ⟨"", "", "10.1/x", "", "2024", ""⟩

/-- A raw item with DOI and year-month date parts. -/
def itemYM : RawItem := ⟨none, some "10.1/x", none, none, some [[some 2024, some 7]], none, none⟩

/-- A raw item with DOI and full year-month-day date parts. -/
def itemYMD : RawItem :=
  ⟨none, some "10.1/x", none, none, some [[some 2024, some 7, some 15]], none, none⟩

/-- A raw item with every key absent, in particular no DOI. -/
def itemNoDoi : RawItem := ⟨none, none, none, none, none, none, none⟩

/-- The angew_scaper.py row produced for itemNoDoi when the Europe PMC
lookup finds nothing: note the empty doi field. -/
def rowNoDoi : PaperRow :=
  ⟨"No title", none, "", "", "No license info", "Abstract not available", "2025-01-01 00:00"⟩

/-- A raw item carrying only the DOI 10.1/abc (title and abstract
absent upstream). -/
def itemBare : RawItem := ⟨none, some "10.1/abc", none, none, none, none, none⟩

/-- The angew_scraper.py row produced for itemBare: empty title and
empty abstract. -/
def entryBare : Entry := ⟨"", "", "10.1/abc", "", "", ""⟩

/-- The angew_scaper.py paper produced for itemBare. -/
def paperBare : Paper := ⟨"No title", "10.1/abc", "", "No license info", none, none⟩

/-- A raw item whose title key is present but maps to an empty list. -/
def itemEmptyTitle : RawItem := ⟨some [], some "10.1/x", none, none, none, none, none⟩

/-- A fully populated raw item. -/
def itemFull : RawItem :=
  ⟨some ["T1", "T2"], some "10.1/a", some "http://x", some [some "http://lic"],
   some [[some 2024, some 7, some 15]], some [some "Smith", none, some "Jones"],
   some "<jats:p>Hello world</jats:p> "⟩

/-- Decidable equality of Except values, used to evaluate the
embedding on concrete inputs. -/
instance {ε α : Type} [DecidableEq ε] [DecidableEq α] : DecidableEq (Except ε α) := fun a b =>
  match a, b with
  | .ok x, .ok y =>
    if h : x = y then isTrue (by rw [h]) else isFalse (by intro hc; cases hc; exact h rfl)
  | .error x, .error y =>
    if h : x = y then isTrue (by rw [h]) else isFalse (by intro hc; cases hc; exact h rfl)
  | .ok _, .error _ => isFalse (by intro hc; cases hc)
  | .error _, .ok _ => isFalse (by intro hc; cases hc)

/-! ## Helper lemmas -/

/-- The per-item extraction of main copies the raw DOI (with default
empty string) into the row. -/
theorem normalizeMainItem_DOI {i : RawItem} {e : Entry}
    (h : normalizeMainItem i = Except.ok e) : e.DOI = i.DOI.getD "" := by
  unfold normalizeMainItem at h
  split at h
  · exact absurd h (by simp)
  · cases h
    rfl

/-- Every fetched item is covered after the dedupe loop of main: its
DOI is empty, already recorded, or carried by one of the new rows. -/
theorem mainNewEntries_covers {items : List RawItem} {existing : List String}
    {es : List Entry} (h : mainNewEntries items existing = Except.ok es) :
    ∀ i ∈ items, i.DOI.getD "" = "" ∨ i.DOI.getD "" ∈ existing
      ∨ i.DOI.getD "" ∈ es.map (fun e => e.DOI) := by
  induction items generalizing es with
  | nil =>
    intro i hi
    exact absurd hi (List.not_mem_nil i)
  | cons a rest ih =>
    intro i hi
    rw [mainNewEntries] at h
    by_cases hc : a.DOI.getD "" = "" ∨ a.DOI.getD "" ∈ existing
    · rw [if_pos hc] at h
      rcases List.mem_cons.mp hi with rfl | hi2
      · rcases hc with h1 | h2
        · exact Or.inl h1
        · exact Or.inr (Or.inl h2)
      · exact ih h i hi2
    · rw [if_neg hc] at h
      split at h
      case _ e2 es2 he2 hes2 =>
        cases h
        rcases List.mem_cons.mp hi with rfl | hi2
        · refine Or.inr (Or.inr ?_)
          rw [List.map_cons, normalizeMainItem_DOI he2]
          exact List.mem_cons_self _ _
        · rcases ih hes2 i hi2 with h1 | h2 | h3
          · exact Or.inl h1
          · exact Or.inr (Or.inl h2)
          · exact Or.inr (Or.inr (List.mem_cons_of_mem _ h3))
      case _ => exact absurd h (by simp)
      case _ => exact absurd h (by simp)

/-- When every fetched item has an empty or already-recorded DOI, the
dedupe loop of main keeps nothing. -/
theorem mainNewEntries_all_skipped {items : List RawItem} {existing : List String}
    (h : ∀ i ∈ items, i.DOI.getD "" = "" ∨ i.DOI.getD "" ∈ existing) :
    mainNewEntries items existing = Except.ok [] := by
  induction items with
  | nil => rfl
  | cons a rest ih =>
    rw [mainNewEntries, if_pos (h a (List.mem_cons_self a rest))]
    exact ih fun i hi => h i (List.mem_cons_of_mem a hi)

/-- Every row kept by the dedupe loop of main carries a non-empty DOI
that is not among the existing identifiers. -/
theorem mainNewEntries_fresh {items : List RawItem} {existing : List String}
    {es : List Entry} (h : mainNewEntries items existing = Except.ok es) :
    ∀ e ∈ es, e.DOI ≠ "" ∧ e.DOI ∉ existing := by
  induction items generalizing es with
  | nil =>
    cases h
    intro e he
    exact absurd he (List.not_mem_nil e)
  | cons a rest ih =>
    rw [mainNewEntries] at h
    by_cases hc : a.DOI.getD "" = "" ∨ a.DOI.getD "" ∈ existing
    · rw [if_pos hc] at h
      exact ih h
    · rw [if_neg hc] at h
      split at h
      case _ e2 es2 he2 hes2 =>
        cases h
        intro e he
        rcases List.mem_cons.mp he with rfl | he2in
        · rw [normalizeMainItem_DOI he2]
          push_neg at hc
          exact hc
        · exact ih hes2 e he2in
      case _ => exact absurd h (by simp)
      case _ => exact absurd h (by simp)

/-- The DOIs of the rows kept by the dedupe loop of main form a
sublist of the non-empty DOIs of the fetched items. -/
theorem mainNewEntries_sublist {items : List RawItem} {existing : List String}
    {es : List Entry} (h : mainNewEntries items existing = Except.ok es) :
    (es.map (fun e => e.DOI)).Sublist
      ((items.map (fun i => i.DOI.getD "")).filter (fun d => decide (d ≠ ""))) := by
  induction items generalizing es with
  | nil =>
    cases h
    simp
  | cons a rest ih =>
    rw [mainNewEntries] at h
    rw [List.map_cons, List.filter_cons]
    by_cases hc : a.DOI.getD "" = "" ∨ a.DOI.getD "" ∈ existing
    · rw [if_pos hc] at h
      split
      · exact (ih h).cons _
      · exact ih h
    · rw [if_neg hc] at h
      push_neg at hc
      rw [if_pos (by simpa using hc.1)]
      split at h
      case _ e2 es2 he2 hes2 =>
        cases h
        rw [List.map_cons, normalizeMainItem_DOI he2]
        exact (ih hes2).cons₂ _
      case _ => exact absurd h (by simp)
      case _ => exact absurd h (by simp)

/-- The enrichment step never yields an empty abstract: a kept primary
abstract is non-empty by the falsy test, and the fallback chain ends
in the non-empty sentinel. -/
theorem enrichAbstract_ne_empty (lookup : String → Option String) (p : Paper) :
    enrichAbstract lookup p ≠ "" := by
  unfold enrichAbstract pyOrStr
  match p.abstract with
  | some a =>
    simp only
    split
    · split
      · decide
      · split
        · decide
        · assumption
    · assumption
  | none =>
    simp only
    split
    · decide
    · split
      · decide
      · assumption

/-- After save_results_to_csv, the DOI of every incoming paper is
recorded: it either was already among the store rows or has just been
appended. -/
theorem save_results_mem_doi (lookup : String → Option String) (now : String)
    (store : List PaperRow) (papers : List Paper) {p : Paper} (hp : p ∈ papers) :
    p.doi ∈ (save_results_to_csv lookup now store papers).map (fun r => r.doi) := by
  unfold save_results_to_csv
  by_cases hmem : p.doi ∈ store.map (fun r => r.doi)
  · split
    · exact hmem
    · rw [List.map_append]
      exact List.mem_append_left _ hmem
  · have hnew : p ∈ newEntriesOf store papers := by
      unfold newEntriesOf
      rw [List.mem_filter]
      exact ⟨hp, by simpa using hmem⟩
    split
    case _ hemp =>
      rw [List.isEmpty_iff] at hemp
      rw [hemp] at hnew
      exact absurd hnew (List.not_mem_nil p)
    case _ =>
      rw [List.map_append, List.map_map]
      refine List.mem_append_right _ ?_
      exact List.mem_map.mpr ⟨p, hnew, rfl⟩

/-- Unfolding equation of main on a successful fetch. -/
theorem main_ok_eq (items : List RawItem) (store : List Entry) :
    main (Except.ok items) store
      = match mainNewEntries items (load_existing_dois store) with
        | Except.error e => ⟨store, Except.error e⟩
        | Except.ok es => ⟨append_to_csv store es, Except.ok es.length⟩ := rfl

/-- main on a successful fetch whose dedupe loop succeeds. -/
theorem main_entries_ok {items : List RawItem} {store : List Entry} {es : List Entry}
    (h : mainNewEntries items (load_existing_dois store) = Except.ok es) :
    main (Except.ok items) store = ⟨append_to_csv store es, Except.ok es.length⟩ := by
  rw [main_ok_eq, h]

/-- main on a successful fetch whose dedupe loop raises. -/
theorem main_entries_error {items : List RawItem} {store : List Entry} {e : String}
    (h : mainNewEntries items (load_existing_dois store) = Except.error e) :
    main (Except.ok items) store = ⟨store, Except.error e⟩ := by
  rw [main_ok_eq, h]

/-- Unfolding equation of scriptMain on a successful fetch. -/
theorem scriptMain_ok_eq (items : List RawItem) (lookup : String → Option String)
    (now : String) (store : List PaperRow) :
    scriptMain (Except.ok items) lookup now store
      = match find_open_access_angew_papers_from items with
        | Except.error e => ⟨store, Except.error e⟩
        | Except.ok papers =>
          ⟨save_results_to_csv lookup now store papers,
           Except.ok (newEntriesOf store papers).length⟩ := rfl

/-- scriptMain on a successful fetch whose normalization succeeds. -/
theorem scriptMain_papers_ok {items : List RawItem} {papers : List Paper}
    (lookup : String → Option String) (now : String) (store : List PaperRow)
    (h : find_open_access_angew_papers_from items = Except.ok papers) :
    scriptMain (Except.ok items) lookup now store
      = ⟨save_results_to_csv lookup now store papers,
         Except.ok (newEntriesOf store papers).length⟩ := by
  rw [scriptMain_ok_eq, h]

/-- scriptMain on a successful fetch whose normalization raises. -/
theorem scriptMain_papers_error {items : List RawItem} {e : String}
    (lookup : String → Option String) (now : String) (store : List PaperRow)
    (h : find_open_access_angew_papers_from items = Except.error e) :
    scriptMain (Except.ok items) lookup now store = ⟨store, Except.error e⟩ := by
  rw [scriptMain_ok_eq, h]

/-- Inversion of Python first-element indexing: a successful xs[0]
means xs starts with that element. -/
theorem headE_ok {α : Type} {l : List α} {x : α} (h : headE l = Except.ok x) :
    ∃ t, l = x :: t := by
  cases l with
  | nil => exact absurd h (by simp [headE])
  | cons a t =>
    have ha : a = x := by simpa [headE] using h
    exact ⟨t, by rw [ha]⟩

/-! ## Claim theorems -/

/-- C8: Fetch failure atomicity. In both variants, when the primary
fetch fails (raise_for_status or a network exception, modelled by the
error constructor), the run terminates with that error and the
persisted store is left exactly as it was: no normalization,
enrichment, or append takes place. -/
theorem fetch_failure_atomic :
    (∀ (e : String) (store : List Entry),
      (main (Except.error e) store).finalStore = store
        ∧ (main (Except.error e) store).outcome = Except.error e)
    ∧ (∀ (e : String) (lookup : String → Option String) (now : String)
        (store : List PaperRow),
      (scriptMain (Except.error e) lookup now store).finalStore = store
        ∧ (scriptMain (Except.error e) lookup now store).outcome = Except.error e) :=
  ⟨fun _ _ => ⟨rfl, rfl⟩, fun _ _ _ _ => ⟨rfl, rfl⟩⟩

/-- C2: Append-only frame property. In both variants, for every store
with N rows, the first N rows after a run are identical to the store
before the run (nothing is updated or deleted), and when the run
reports k additions the final store has exactly N + k rows. -/
theorem append_only_frame :
    (∀ (fr : Except String (List RawItem)) (store : List Entry),
      (main fr store).finalStore.take store.length = store
        ∧ ∀ k : Nat, (main fr store).outcome = Except.ok k →
            (main fr store).finalStore.length = store.length + k)
    ∧ (∀ (fr : Except String (List RawItem)) (lookup : String → Option String)
        (now : String) (store : List PaperRow),
      (scriptMain fr lookup now store).finalStore.take store.length = store
        ∧ ∀ k : Nat, (scriptMain fr lookup now store).outcome = Except.ok k →
            (scriptMain fr lookup now store).finalStore.length = store.length + k) := by
  constructor
  · intro fr store
    match fr with
    | .error e =>
      exact ⟨List.take_length store, fun k hk => absurd hk (by simp [main])⟩
    | .ok items =>
      cases hne : mainNewEntries items (load_existing_dois store) with
      | error e =>
        rw [main_entries_error hne]
        exact ⟨List.take_length store, fun k hk => absurd hk (by simp)⟩
      | ok es =>
        rw [main_entries_ok hne]
        refine ⟨List.take_left store es, ?_⟩
        intro k hk
        simp only at hk
        cases hk
        exact List.length_append store es
  · intro fr lookup now store
    match fr with
    | .error e =>
      exact ⟨List.take_length store, fun k hk => absurd hk (by simp [scriptMain])⟩
    | .ok items =>
      cases hpf : find_open_access_angew_papers_from items with
      | error e =>
        rw [scriptMain_papers_error lookup now store hpf]
        exact ⟨List.take_length store, fun k hk => absurd hk (by simp)⟩
      | ok papers =>
        rw [scriptMain_papers_ok lookup now store hpf]
        simp only
        unfold save_results_to_csv
        split
        case _ hemp =>
          refine ⟨List.take_length store, ?_⟩
          intro k hk
          cases hk
          rw [List.isEmpty_iff] at hemp
          rw [hemp]
          rfl
        case _ hemp =>
          refine ⟨List.take_left store _, ?_⟩
          intro k hk
          cases hk
          rw [List.length_append, List.length_map]

/-- C1: Idempotence. In both variants, a run that succeeds leaves a
store against which a second run over the same fetched items appends
nothing: every identifier of the first run is found in the
existing-identifier set and deduplicated, so the second run reports
zero additions and leaves the store unchanged. -/
theorem run_idempotent :
    (∀ (items : List RawItem) (store : List Entry) (k : Nat),
      (main (Except.ok items) store).outcome = Except.ok k →
      (main (Except.ok items) (main (Except.ok items) store).finalStore).finalStore
          = (main (Except.ok items) store).finalStore
        ∧ (main (Except.ok items) (main (Except.ok items) store).finalStore).outcome
          = Except.ok 0)
    ∧ (∀ (items : List RawItem) (lookupA lookupB : String → Option String)
        (nowA nowB : String) (store : List PaperRow) (k : Nat),
      (scriptMain (Except.ok items) lookupA nowA store).outcome = Except.ok k →
      (scriptMain (Except.ok items) lookupB nowB
          (scriptMain (Except.ok items) lookupA nowA store).finalStore).finalStore
          = (scriptMain (Except.ok items) lookupA nowA store).finalStore
        ∧ (scriptMain (Except.ok items) lookupB nowB
            (scriptMain (Except.ok items) lookupA nowA store).finalStore).outcome
          = Except.ok 0) := by
  constructor
  · intro items store k h
    cases hne : mainNewEntries items (load_existing_dois store) with
    | error e =>
      rw [main_entries_error hne] at h
      exact absurd h (by simp)
    | ok es =>
      have h1 := main_entries_ok hne
      rw [h1]
      have hcov := mainNewEntries_covers hne
      have hall : ∀ i ∈ items, i.DOI.getD "" = ""
          ∨ i.DOI.getD "" ∈ load_existing_dois (append_to_csv store es) := by
        intro i hi
        rcases hcov i hi with h0 | h2 | h3
        · exact Or.inl h0
        · refine Or.inr ?_
          unfold load_existing_dois append_to_csv at *
          rw [List.map_append]
          exact List.mem_append_left _ h2
        · refine Or.inr ?_
          unfold load_existing_dois append_to_csv at *
          rw [List.map_append]
          exact List.mem_append_right _ h3
      have hskip := mainNewEntries_all_skipped hall
      have h2 : main (Except.ok items) (append_to_csv store es)
          = ⟨append_to_csv (append_to_csv store es) [], Except.ok 0⟩ :=
        main_entries_ok hskip
      rw [h2]
      exact ⟨List.append_nil _, rfl⟩
  · intro items lookupA lookupB nowA nowB store k h
    cases hpf : find_open_access_angew_papers_from items with
    | error e =>
      rw [scriptMain_papers_error lookupA nowA store hpf] at h
      exact absurd h (by simp)
    | ok papers =>
      have h1 := scriptMain_papers_ok lookupA nowA store hpf
      rw [h1]
      have hnil : newEntriesOf (save_results_to_csv lookupA nowA store papers) papers = [] := by
        unfold newEntriesOf
        rw [List.filter_eq_nil_iff]
        intro p hp
        simpa using save_results_mem_doi lookupA nowA store papers hp
      have hsave : save_results_to_csv lookupB nowB
          (save_results_to_csv lookupA nowA store papers) papers
          = save_results_to_csv lookupA nowA store papers := by
        conv_lhs => rw [save_results_to_csv]
        rw [hnil]
        rfl
      have h2 : scriptMain (Except.ok items) lookupB nowB
          (save_results_to_csv lookupA nowA store papers)
          = ⟨save_results_to_csv lookupA nowA store papers, Except.ok 0⟩ := by
        rw [scriptMain_papers_ok lookupB nowB _ hpf, hsave, hnil]
        rfl
      rw [h2]
      exact ⟨rfl, rfl⟩

/-- C1 witness: a store built by one run over a single-item page
absorbs a second run over the same page without change. -/
theorem run_idempotent_witness :
    (main (Except.ok [itemDup]) (main (Except.ok [itemDup]) []).finalStore).finalStore
        = (main (Except.ok [itemDup]) []).finalStore
      ∧ (main (Except.ok [itemDup]) (main (Except.ok [itemDup]) []).finalStore).outcome
        = Except.ok 0 :=
  run_idempotent.1 [itemDup] [] 1 (by decide)

/-- C2 witness: a run over one new item on a one-row store keeps the
old row in place and reaches exactly two rows. -/
theorem append_only_frame_witness :
    (main (Except.ok [itemDup]) [entryOther]).finalStore.take [entryOther].length
        = [entryOther]
      ∧ (main (Except.ok [itemDup]) [entryOther]).finalStore.length
        = [entryOther].length + 1 :=
  ⟨(append_only_frame.1 (Except.ok [itemDup]) [entryOther]).1,
   (append_only_frame.1 (Except.ok [itemDup]) [entryOther]).2 1 (by decide)⟩

/-- C3 counterexample: a fetched page holding the same DOI twice is
appended twice by main of angew_scraper.py — the dedupe loop never
extends the existing-identifier set during a run, so the store loses
identifier uniqueness even though it started empty (and a fortiori
distinct). -/
theorem duplicate_page_breaks_uniqueness :
    (main (Except.ok [itemDup, itemDup]) []).finalStore = [entryDup, entryDup]
      ∧ ¬ (((main (Except.ok [itemDup, itemDup]) []).finalStore.map
            (fun e => e.DOI)).Nodup) :=
  ⟨by decide, by decide⟩

/-- C3 amended: identifier uniqueness is preserved by a run of main
provided no two fetched items carry the same non-empty identifier;
in-page duplicates are not deduplicated (see the counterexample). -/
theorem doi_nodup_preserved :
    ∀ (items : List RawItem) (store : List Entry),
      (load_existing_dois store).Nodup →
      ((items.map (fun i => i.DOI.getD "")).filter (fun d => decide (d ≠ ""))).Nodup →
      (((main (Except.ok items) store).finalStore).map (fun e => e.DOI)).Nodup := by
  intro items store h1 h2
  cases hne : mainNewEntries items (load_existing_dois store) with
  | error e =>
    rw [main_entries_error hne]
    exact h1
  | ok es =>
    rw [main_entries_ok hne]
    unfold append_to_csv
    rw [List.map_append, List.nodup_append]
    refine ⟨h1, h2.sublist (mainNewEntries_sublist hne), ?_⟩
    intro d hd1 hd2
    obtain ⟨e, he, rfl⟩ := List.mem_map.mp hd2
    exact (mainNewEntries_fresh hne e he).2 hd1

/-- C3 witness: a fresh item against a store of one other row keeps
the DOI column duplicate-free. -/
theorem doi_nodup_preserved_witness :
    (((main (Except.ok [itemDup]) [entryOther]).finalStore).map (fun e => e.DOI)).Nodup :=
  doi_nodup_preserved [itemDup] [entryOther] (by decide) (by decide)

/-- C4 counterexample: angew_scaper.py persists an item whose DOI key
is missing — save_results_to_csv only filters against the recorded
DOI set and never tests for an empty identifier, so a row with an
empty doi field is appended to an empty store. -/
theorem scaper_persists_empty_doi :
    (scriptMain (Except.ok [itemNoDoi]) (fun _ => none) "2025-01-01 00:00" []).finalStore
        = [rowNoDoi]
      ∧ rowNoDoi.doi = "" :=
  ⟨by decide, by decide⟩

/-- C4 amended: in the angew_scraper.py pipeline an item with a
missing or empty identifier is never persisted; the angew_scaper.py
variant only excludes such an item when the empty identifier is
already recorded in the store. -/
theorem main_never_persists_empty_doi :
    (∀ (items : List RawItem) (store : List Entry) (r : Entry),
      r ∈ (main (Except.ok items) store).finalStore.drop store.length → r.DOI ≠ "")
    ∧ (∀ (lookup : String → Option String) (now : String) (store : List PaperRow)
        (papers : List Paper) (r : PaperRow),
      "" ∈ store.map (fun x => x.doi) →
      r ∈ (save_results_to_csv lookup now store papers).drop store.length →
      r.doi ≠ "") := by
  constructor
  · intro items store r hr
    cases hne : mainNewEntries items (load_existing_dois store) with
    | error e =>
      rw [main_entries_error hne] at hr
      simp only [List.drop_length] at hr
      exact absurd hr (List.not_mem_nil r)
    | ok es =>
      rw [main_entries_ok hne] at hr
      unfold append_to_csv at hr
      rw [List.drop_left] at hr
      exact (mainNewEntries_fresh hne r hr).1
  · intro lookup now store papers r hE hr
    unfold save_results_to_csv at hr
    split at hr
    · rw [List.drop_length] at hr
      exact absurd hr (List.not_mem_nil r)
    · rw [List.drop_left] at hr
      obtain ⟨p, hp, rfl⟩ := List.mem_map.mp hr
      have hfresh : p.doi ∉ store.map (fun x => x.doi) := by
        have := (List.mem_filter.mp hp).2
        simpa using this
      intro hempty
      simp only at hempty
      rw [hempty] at hfresh
      exact hfresh hE

/-- C4 witness: the row appended for a well-formed item has a
non-empty DOI. -/
theorem main_never_persists_empty_doi_witness : entryDup.DOI ≠ "" :=
  main_never_persists_empty_doi.1 [itemDup] [] entryDup (by decide)

/-- C5 counterexample: main of angew_scraper.py persists a record
whose abstract is absent upstream with an empty Abstract field — that
variant performs no enrichment and writes the stripped empty string,
not the sentinel. -/
theorem main_persists_empty_abstract :
    (main (Except.ok [itemBare]) []).finalStore = [entryBare]
      ∧ entryBare.Abstract = "" :=
  ⟨by decide, rfl⟩

/-- C5 amended: in angew_scaper.py, a new record whose abstract is
falsy after the primary fetch and whose Europe PMC lookup is falsy
persists with the literal sentinel, and no row appended by
save_results_to_csv ever carries an empty abstract; the
angew_scraper.py variant has no enrichment and can persist an empty
abstract (see the counterexample). -/
theorem scaper_abstract_sentinel :
    (∀ (lookup : String → Option String) (p : Paper),
      (p.abstract = none ∨ p.abstract = some "") →
      (lookup p.doi = none ∨ lookup p.doi = some "") →
      enrichAbstract lookup p = "Abstract not available")
    ∧ (∀ (lookup : String → Option String) (now : String) (store : List PaperRow)
        (papers : List Paper) (r : PaperRow),
      r ∈ (save_results_to_csv lookup now store papers).drop store.length →
      r.abstract ≠ "") := by
  constructor
  · intro lookup p habs hlk
    unfold enrichAbstract
    rcases habs with h0 | h0 <;> rw [h0] <;>
      rcases hlk with h1 | h1 <;> simp [pyOrStr, h1]
  · intro lookup now store papers r hr
    unfold save_results_to_csv at hr
    split at hr
    · rw [List.drop_length] at hr
      exact absurd hr (List.not_mem_nil r)
    · rw [List.drop_left] at hr
      obtain ⟨p, _, rfl⟩ := List.mem_map.mp hr
      exact enrichAbstract_ne_empty lookup p

/-- C5 witness: a paper with no primary abstract and an empty Europe
PMC answer is stamped with the sentinel. -/
theorem scaper_abstract_sentinel_witness :
    enrichAbstract (fun _ => none) paperBare = "Abstract not available" :=
  scaper_abstract_sentinel.1 (fun _ => none) paperBare (Or.inl rfl) (Or.inl rfl)

/-- C6 counterexample: the angew_scaper.py normalization keeps only
the first date component — an item with date parts [2024, 7] and an
item with date parts [2024] normalize to the very same record, whose
year field is 2024; no "2024-7" rendering exists in that variant. -/
theorem scaper_date_drops_month :
    normalizeScaperItem itemYM = normalizeScaperItem itemY
      ∧ normalizeScaperItem itemYM
        = Except.ok { title := "No title", doi := "10.1/x", url := "",
                      license := "No license info", year := some 2024,
                      abstract := none } :=
  ⟨rfl, by decide⟩

/-- C6 amended: in main of angew_scraper.py the date parts are joined
with a dash, omitting falsy components: [2024] renders as "2024",
[2024, 7] as "2024-7", [2024, 7, 15] as "2024-7-15", and in general
the Date field is the dash-join of the truthy parts of the first
date-parts entry; the angew_scaper.py variant instead records only
the first component (see the counterexample). -/
theorem main_date_join :
    normalizeMainItem itemY = Except.ok entryY
      ∧ normalizeMainItem itemYM
        = Except.ok { Title := "", Authors := "", DOI := "10.1/x", URL := "",
                      Date := "2024-7", Abstract := "" }
      ∧ normalizeMainItem itemYMD
        = Except.ok { Title := "", Authors := "", DOI := "10.1/x", URL := "",
                      Date := "2024-7-15", Abstract := "" }
      ∧ ∀ (i : RawItem) (e : Entry), normalizeMainItem i = Except.ok e →
          ∃ dp rest, i.dateParts.getD [[none]] = dp :: rest
            ∧ e.Date = joinDateParts dp := by
  refine ⟨by decide, by decide, by decide, ?_⟩
  intro i e h
  unfold normalizeMainItem at h
  split at h
  case _ => exact absurd h (by simp)
  case _ dp heq =>
    obtain ⟨rest, hrest⟩ := headE_ok heq
    cases h
    exact ⟨dp, rest, hrest, rfl⟩

/-- C6 witness: the year-only item fetches a Date equal to the join of
its single truthy part. -/
theorem main_date_join_witness :
    ∃ dp rest, itemY.dateParts.getD [[none]] = dp :: rest
      ∧ entryY.Date = joinDateParts dp :=
  main_date_join.2.2.2 itemY entryY (by decide)

/-- C7: the Europe PMC lookup is best-effort: an exception, a
non-success response or an empty result list all yield the absence
signal, and any produced value is the whitespace-stripped abstract of
the first result; the function is total, so an enrichment call never
aborts the run. -/
theorem europepmc_best_effort :
    (∀ e : String, get_abstract_from_europepmc (Except.error e) = none)
    ∧ (∀ r : PmcResponse, r.ok = false →
        get_abstract_from_europepmc (Except.ok r) = none)
    ∧ (∀ r : PmcResponse, r.results = [] →
        get_abstract_from_europepmc (Except.ok r) = none)
    ∧ (∀ (resp : Except String PmcResponse) (a : String),
        get_abstract_from_europepmc resp = some a →
        ∃ r hd tl t, resp = Except.ok r ∧ r.results = hd :: tl
          ∧ hd.abstractText = some t ∧ t ≠ "" ∧ a = pyStrip t) := by
  refine ⟨fun e => rfl, ?_, ?_, ?_⟩
  · intro r h
    simp [get_abstract_from_europepmc, pmcExtract, h]
  · intro r h
    simp [get_abstract_from_europepmc, pmcExtract, h]
  · intro resp a h
    match resp with
    | .error e => exact absurd h (by simp [get_abstract_from_europepmc])
    | .ok r =>
      have h2 : pmcExtract r = some a := h
      unfold pmcExtract at h2
      split at h2
      case _ hok =>
        cases hres : r.results with
        | nil =>
          rw [hres] at h2
          exact absurd h2 (by simp)
        | cons hd tl =>
          rw [hres] at h2
          dsimp only at h2
          cases habs : hd.abstractText with
          | none =>
            rw [habs] at h2
            exact absurd h2 (by simp)
          | some t =>
            rw [habs] at h2
            simp only at h2
            split at h2
            case _ => exact absurd h2 (by simp)
            case _ ht =>
              refine ⟨r, hd, tl, t, rfl, hres, habs, ht, ?_⟩
              simpa using h2.symm
      case _ => exact absurd h2 (by simp)

/-- C7 witness: a non-success response yields the absence signal. -/
theorem europepmc_best_effort_witness :
    get_abstract_from_europepmc (Except.ok ⟨false, []⟩) = none :=
  europepmc_best_effort.2.1 ⟨false, []⟩ rfl

/-- C9 counterexample: main of angew_scraper.py turns an absent title
into the empty string (the space-join of the empty default list), not
a non-empty placeholder. -/
theorem main_title_empty_default :
    normalizeMainItem itemBare = Except.ok entryBare ∧ entryBare.Title = "" :=
  ⟨by decide, rfl⟩

/-- C9 amended: in angew_scaper.py an item whose title is absent
upstream normalizes with the non-empty placeholder "No title"; the
angew_scraper.py variant instead produces the empty string (see the
counterexample). -/
theorem scaper_title_placeholder :
    (∀ (item : RawItem) (p : Paper),
      item.title = none → normalizeScaperItem item = Except.ok p →
      p.title = "No title")
    ∧ ("No title" : String) ≠ "" := by
  refine ⟨?_, by decide⟩
  intro item p ht h
  unfold normalizeScaperItem at h
  rw [ht] at h
  split at h
  case _ e heq => simp [headE] at heq
  case _ t heq =>
    have ht2 : "No title" = t := by simpa [headE] using heq
    subst ht2
    split at h
    · exact absurd h (by simp)
    · split at h
      · exact absurd h (by simp)
      · split at h
        · exact absurd h (by simp)
        · cases h
          rfl

/-- C9 witness: the bare item, whose title key is absent, normalizes
with the placeholder. -/
theorem scaper_title_placeholder_witness : paperBare.title = "No title" :=
  scaper_title_placeholder.1 itemBare paperBare rfl (by decide)

/-- C10 counterexample: a raw item whose title key is present but maps
to an empty list makes find_open_access_angew_papers_from raise an
IndexError at the first-element indexing of the title. -/
theorem scaper_normalize_raises_on_empty_title :
    normalizeScaperItem itemEmptyTitle = Except.error "IndexError" := rfl

/-- C10 amended: the angew_scaper.py normalization of one raw item
completes without raising whenever the title and license lists, when
present, are non-empty, and the date-parts list, when present, is
non-empty with a non-empty first entry; an item violating these
conditions raises IndexError (see the counterexample). -/
theorem scaper_normalize_total_on_nonempty :
    ∀ item : RawItem,
      (∀ l, item.title = some l → l ≠ []) →
      (∀ l, item.license = some l → l ≠ []) →
      (∀ l, item.dateParts = some l → ∃ d ds, l = d :: ds ∧ d ≠ []) →
      ∃ p, normalizeScaperItem item = Except.ok p := by
  intro item h1 h2 h3
  obtain ⟨t, ts, hts⟩ : ∃ t ts, item.title.getD ["No title"] = t :: ts := by
    cases hti : item.title with
    | none => exact ⟨"No title", [], rfl⟩
    | some l =>
      obtain ⟨a, as, rfl⟩ := List.exists_cons_of_ne_nil (h1 l hti)
      exact ⟨a, as, rfl⟩
  obtain ⟨lc, lcs, hlc⟩ : ∃ lc lcs, item.license.getD [none] = lc :: lcs := by
    cases hli : item.license with
    | none => exact ⟨none, [], rfl⟩
    | some l =>
      obtain ⟨a, as, rfl⟩ := List.exists_cons_of_ne_nil (h2 l hli)
      exact ⟨a, as, rfl⟩
  obtain ⟨y, ys, ds, hdp⟩ :
      ∃ y ys ds, item.dateParts.getD [[none]] = (y :: ys) :: ds := by
    cases hdi : item.dateParts with
    | none => exact ⟨none, [], [], rfl⟩
    | some l =>
      obtain ⟨d, ds, rfl, hdne⟩ := h3 l hdi
      obtain ⟨y, ys, rfl⟩ := List.exists_cons_of_ne_nil hdne
      exact ⟨y, ys, ds, rfl⟩
  unfold normalizeScaperItem
  rw [hts, hlc, hdp]
  exact ⟨_, rfl⟩

/-- C10 witness: a fully populated item normalizes successfully. -/
theorem scaper_normalize_total_on_nonempty_witness :
    ∃ p, normalizeScaperItem itemFull = Except.ok p :=
  scaper_normalize_total_on_nonempty itemFull
    (by intro l hl; simp only [itemFull] at hl; cases hl; simp)
    (by intro l hl; simp only [itemFull] at hl; cases hl; simp)
    (by
      intro l hl
      simp only [itemFull] at hl
      cases hl
      exact ⟨[some 2024, some 7, some 15], [], rfl, by simp⟩)

end Angew
